import Mathlib

/-!
Verification of the request-dispatch layer of the learning-roadmap
application.  The definitions below are a shallow embedding of
`src/services/geminiService.ts`, `src/services/userService.ts` and the
`roadmaps` table migration.  Timestamps are naturals (milliseconds, as
produced by `Date.now()`); the `setTimeout` reactivation scheduled by
`MultiKeyRateLimiter.recordError` is embedded as an explicit deadline
(`reactivateAt`) fired by `fireTimer` once the clock reaches it; network
and database effects are passed in as explicit outcome values.
-/

/-- Limit `maxRequestsPerKey = 20` of `MultiKeyRateLimiter` (geminiService.ts line 20). -/
def maxRequestsPerKey : Nat := 20

/-- Limit `timeWindow = 60000` ms (geminiService.ts line 21). -/
def timeWindow : Nat := 60000

/-- Limit `minInterval = 1000` ms (geminiService.ts line 22). -/
def minInterval : Nat := 1000

/-- Limit `maxConsecutiveErrors = 3` (geminiService.ts line 23). -/
def maxConsecutiveErrors : Nat := 3

/-- Cool-down of the `setTimeout` in `recordError`: 300000 ms = 5 minutes (line 99). -/
def cooldownMs : Nat := 300000

/-- Per-key bookkeeping record of `MultiKeyRateLimiter.keyUsage` (line 18), extended
with the deadline of the pending `setTimeout` reactivation scheduled by
`recordError` (`none` when no timer is pending). -/
structure KeyUsage where
  requests : List Nat
  lastRequest : Nat
  consecutiveErrors : Nat
  isActive : Bool
  reactivateAt : Option Nat
  deriving Repr, DecidableEq

/-- State of `MultiKeyRateLimiter`: the ordered key pool and the usage map
(an association list; the constructor inserts every pool key exactly once). -/
structure Tracker where
  keyPool : List String
  keyUsage : List (String × KeyUsage)
  deriving Repr, DecidableEq

/-- Lookup `this.keyUsage.get(key)`. -/
def lookupUsage (st : Tracker) (k : String) : Option KeyUsage :=
  (st.keyUsage.find? (fun p => p.1 == k)).map (fun p => p.2)

/-- Tracker state produced by the `MultiKeyRateLimiter` constructor (lines 25-39)
for a given list of configured keys: every key starts with no recorded
requests, `lastRequest = 0`, no errors, active, and no pending timer. -/
def initTracker (keys : List String) : Tracker :=
  { keyPool := keys
    keyUsage := keys.map (fun k => (k, ⟨[], 0, 0, true, none⟩)) }

/-- The in-place cleaning `usage.requests.filter(time => now - time < this.timeWindow)`
(lines 52-53 and 65). -/
def cleanedRequests (now : Nat) (u : KeyUsage) : List Nat :=
  u.requests.filter (fun t => now - t < timeWindow)

/-- Number of calls of key `k` inside the trailing window, the quantity the
sort comparator of `getAvailableKeys` orders by (line 55).  A key missing from
the usage map counts as 0 (the comparator returns 0 for such keys). -/
def callsInWindow (st : Tracker) (now : Nat) (k : String) : Nat :=
  match lookupUsage st k with
  | some u => (cleanedRequests now u).length
  | none => 0

/-- The per-key check of lines 68-70: window quota, minimum spacing from the
last call, and consecutive-error threshold. -/
def canUseKey (now : Nat) (u : KeyUsage) : Bool :=
  decide ((cleanedRequests now u).length < maxRequestsPerKey) &&
  decide (minInterval ≤ now - u.lastRequest) &&
  decide (u.consecutiveErrors < maxConsecutiveErrors)

/-- Combined eligibility used by the selection loop of `getAvailableKeys`:
lines 61-62 skip a key with no usage record or with `isActive` false, and
lines 68-74 keep it only when `canUseKey` holds. -/
def eligibleKey (st : Tracker) (now : Nat) (k : String) : Bool :=
  match lookupUsage st k with
  | none => false
  | some u => u.isActive && canUseKey now u

set_option linter.unusedVariables false

/-- The comparator of line 46-56: order keys by ascending number of calls in
the trailing window. -/
def keyOrder (st : Tracker) (now : Nat) (a b : String) : Prop :=
  callsInWindow st now a ≤ callsInWindow st now b

instance (st : Tracker) (now : Nat) : DecidableRel (keyOrder st now) :=
  fun a b => inferInstanceAs (Decidable (_ ≤ _))

/-- The collection loop of lines 58-75: walk the sorted keys, break as soon as
`count` keys have been collected, skip ineligible keys.  The remaining budget
`count - availableKeys.length` drives the break. -/
def selectLoop (st : Tracker) (now : Nat) : Nat → List String → List String
  | _, [] => []
  | 0, _ :: _ => []
  | budget + 1, k :: rest =>
    if eligibleKey st now k then k :: selectLoop st now budget rest
    else selectLoop st now (budget + 1) rest

/-- `MultiKeyRateLimiter.getAvailableKeys` (lines 41-78): sort the pool by
ascending calls-in-window (the JavaScript `Array.prototype.sort` with the
comparator of line 55, embedded as a stable sort by that order) and collect
the first `count` eligible keys. -/
def getAvailableKeys (st : Tracker) (count : Nat) (now : Nat) : List String :=
  selectLoop st now count (st.keyPool.insertionSort (keyOrder st now))

/-- Pointwise update of the usage map entry of key `k`, as done by the
`recordRequest` / `recordError` / `recordSuccess` methods through the mutable
reference obtained from `this.keyUsage.get(apiKey)`. -/
def updateUsage (st : Tracker) (k : String) (f : KeyUsage → KeyUsage) : Tracker :=
  { st with keyUsage := st.keyUsage.map (fun p => if p.1 == k then (p.1, f p.2) else p) }

/-- `MultiKeyRateLimiter.recordRequest` (lines 80-87). -/
def recordRequest (st : Tracker) (k : String) (now : Nat) : Tracker :=
  updateUsage st k (fun u => { u with requests := u.requests ++ [now], lastRequest := now })

/-- `MultiKeyRateLimiter.recordError` (lines 89-102): increment the
consecutive-error counter; once it reaches `maxConsecutiveErrors`, suspend the
key and schedule reactivation `cooldownMs` later. -/
def recordError (st : Tracker) (k : String) (now : Nat) : Tracker :=
  updateUsage st k (fun u =>
    if maxConsecutiveErrors ≤ u.consecutiveErrors + 1 then
      { u with consecutiveErrors := u.consecutiveErrors + 1
               isActive := false
               reactivateAt := some (now + cooldownMs) }
    else { u with consecutiveErrors := u.consecutiveErrors + 1 })

/-- `MultiKeyRateLimiter.recordSuccess` (lines 104-110).  The pending timer, if
any, is left in place: the JavaScript `setTimeout` callback is not cancelled. -/
def recordSuccess (st : Tracker) (k : String) : Tracker :=
  updateUsage st k (fun u => { u with consecutiveErrors := 0, isActive := true })

/-- Firing of the `setTimeout` callback of `recordError` (lines 96-99) once the
clock has reached the scheduled deadline. -/
def fireTimer (now : Nat) (u : KeyUsage) : KeyUsage :=
  match u.reactivateAt with
  | some d => if d ≤ now then { u with isActive := true, consecutiveErrors := 0, reactivateAt := none } else u
  | none => u

/-- Tracker state observed at time `now`: every due reactivation timer has fired. -/
def elapse (now : Nat) (st : Tracker) : Tracker :=
  { st with keyUsage := st.keyUsage.map (fun p => (p.1, fireTimer now p.2)) }

theorem selectLoop_eq_take_filter (st : Tracker) (now : Nat) :
    ∀ (budget : Nat) (l : List String),
      selectLoop st now budget l = (l.filter (eligibleKey st now)).take budget := by
  intro budget l
  induction l generalizing budget with
  | nil => cases budget <;> rfl
  | cons k rest ih =>
    cases budget with
    | zero => simp [selectLoop]
    | succ b =>
      by_cases hk : eligibleKey st now k = true
      · simp [selectLoop, hk, ih]
      · simp only [Bool.not_eq_true] at hk
        simp [selectLoop, hk, ih]

theorem getAvailableKeys_eq (st : Tracker) (count now : Nat) :
    getAvailableKeys st count now =
      ((st.keyPool.insertionSort (keyOrder st now)).filter (eligibleKey st now)).take count := by
  simp [getAvailableKeys, selectLoop_eq_take_filter]

theorem length_getAvailableKeys_le (st : Tracker) (count now : Nat) :
    (getAvailableKeys st count now).length ≤ count := by
  simp [getAvailableKeys_eq]

theorem length_getAvailableKeys_le_pool (st : Tracker) (count now : Nat) :
    (getAvailableKeys st count now).length ≤ st.keyPool.length := by
  rw [getAvailableKeys_eq]
  calc (((st.keyPool.insertionSort (keyOrder st now)).filter (eligibleKey st now)).take count).length
      ≤ ((st.keyPool.insertionSort (keyOrder st now)).filter (eligibleKey st now)).length := by
        rw [List.length_take]; exact Nat.min_le_right _ _
    _ ≤ (st.keyPool.insertionSort (keyOrder st now)).length := List.length_filter_le _ _
    _ = st.keyPool.length := (List.perm_insertionSort _ _).length_eq

theorem mem_getAvailableKeys_eligible {st : Tracker} {count now : Nat} {k : String}
    (h : k ∈ getAvailableKeys st count now) : eligibleKey st now k = true := by
  rw [getAvailableKeys_eq] at h
  exact (List.mem_filter.mp (List.mem_of_mem_take h)).2

theorem not_mem_getAvailableKeys_of_not_eligible {st : Tracker} {count now : Nat} {k : String}
    (h : eligibleKey st now k = false) : k ∉ getAvailableKeys st count now := by
  intro hk
  rw [mem_getAvailableKeys_eligible hk] at h
  exact absurd h (by decide)

instance keyOrderTotal (st : Tracker) (now : Nat) : IsTotal String (keyOrder st now) :=
  ⟨fun a b => Nat.le_total _ _⟩

instance keyOrderTrans (st : Tracker) (now : Nat) : IsTrans String (keyOrder st now) :=
  ⟨fun _ _ _ => Nat.le_trans⟩

theorem eligibleKey_elim {st : Tracker} {now : Nat} {k : String}
    (h : eligibleKey st now k = true) :
    ∃ u, lookupUsage st k = some u ∧
      u.isActive = true ∧ u.consecutiveErrors < maxConsecutiveErrors ∧
      (cleanedRequests now u).length < maxRequestsPerKey ∧
      minInterval ≤ now - u.lastRequest := by
  cases hu : lookupUsage st k with
  | none => simp [eligibleKey, hu] at h
  | some u =>
    simp only [eligibleKey, hu, canUseKey, Bool.and_eq_true, decide_eq_true_eq] at h
    refine ⟨u, rfl, ?_, ?_, ?_, ?_⟩ <;> tauto

/-- Claim C4: for every tracker state and every `n`, `getAvailableKeys n`
returns at most `n` credentials, none of which is suspended (`isActive` false
or `consecutiveErrors` at or above the threshold 3), none of which has 20 or
more recorded calls inside the trailing 60-second window, and none of which
was last used less than the 1-second minimum interval ago; among eligible
credentials it prefers those with fewest calls in the window (every selected
key has at most as many calls in the window as any eligible key left out). -/
theorem getAvailableKeys_spec (st : Tracker) (count now : Nat) :
    (getAvailableKeys st count now).length ≤ count ∧
    (∀ k ∈ getAvailableKeys st count now, ∃ u, lookupUsage st k = some u ∧
        u.isActive = true ∧ u.consecutiveErrors < maxConsecutiveErrors ∧
        (cleanedRequests now u).length < maxRequestsPerKey ∧
        minInterval ≤ now - u.lastRequest) ∧
    (∀ k ∈ getAvailableKeys st count now, ∀ k', k' ∈ st.keyPool →
        eligibleKey st now k' = true → k' ∉ getAvailableKeys st count now →
        callsInWindow st now k ≤ callsInWindow st now k') := by
  refine ⟨length_getAvailableKeys_le st count now, ?_, ?_⟩
  · intro k hk
    exact eligibleKey_elim (mem_getAvailableKeys_eligible hk)
  · intro k hk k' hk'pool hk'elig hk'out
    set sorted := st.keyPool.insertionSort (keyOrder st now) with hsorted
    set flt := sorted.filter (eligibleKey st now) with hflt
    have hsortedpw : flt.Pairwise (keyOrder st now) :=
      (List.sorted_insertionSort (keyOrder st now) st.keyPool).filter _
    have hk'flt : k' ∈ flt := by
      rw [hflt]
      refine List.mem_filter.mpr ⟨?_, hk'elig⟩
      exact ((List.perm_insertionSort (keyOrder st now) st.keyPool).mem_iff).mpr hk'pool
    have hsel : getAvailableKeys st count now = flt.take count := getAvailableKeys_eq st count now
    rw [hsel] at hk hk'out
    have hk'drop : k' ∈ flt.drop count := by
      have hsplit : k' ∈ flt.take count ++ flt.drop count := by
        rw [List.take_append_drop]; exact hk'flt
      exact (List.mem_append.mp hsplit).resolve_left hk'out
    have hpw : (flt.take count ++ flt.drop count).Pairwise (keyOrder st now) := by
      rw [List.take_append_drop]; exact hsortedpw
    exact (List.pairwise_append.mp hpw).2.2 k hk k' hk'drop

/-- Concrete two-key tracker used to instantiate the selection theorems:
key `k1` has no calls in the window, key `k2` has one. -/
def demoTracker : Tracker :=
  { keyPool := ["k1", "k2"]
    keyUsage := [("k1", ⟨[], 0, 0, true, none⟩), ("k2", ⟨[4900], 0, 0, true, none⟩)] }

theorem getAvailableKeys_spec_witness :
    (getAvailableKeys demoTracker 1 5000).length ≤ 1 ∧
    (∃ u, lookupUsage demoTracker "k1" = some u ∧
        u.isActive = true ∧ u.consecutiveErrors < maxConsecutiveErrors ∧
        (cleanedRequests 5000 u).length < maxRequestsPerKey ∧
        minInterval ≤ 5000 - u.lastRequest) ∧
    callsInWindow demoTracker 5000 "k1" ≤ callsInWindow demoTracker 5000 "k2" :=
  ⟨(getAvailableKeys_spec demoTracker 1 5000).1,
   (getAvailableKeys_spec demoTracker 1 5000).2.1 "k1" (by decide),
   (getAvailableKeys_spec demoTracker 1 5000).2.2 "k1" (by decide) "k2" (by decide)
     (by decide) (by decide)⟩

theorem lookupUsage_updateUsage_self (st : Tracker) (k : String) (f : KeyUsage → KeyUsage) :
    lookupUsage (updateUsage st k f) k = (lookupUsage st k).map f := by
  obtain ⟨pool, usage⟩ := st
  simp only [lookupUsage, updateUsage]
  induction usage with
  | nil => rfl
  | cons p rest ih =>
    obtain ⟨a, v⟩ := p
    by_cases hp : (a == k) = true
    · have ha : a = k := by simpa using hp
      subst ha
      simp [List.find?_cons]
    · simp only [List.map_cons, if_neg hp]
      rw [List.find?_cons_of_neg _ (by simpa using hp), List.find?_cons_of_neg _ (by simpa using hp)]
      exact ih

theorem lookupUsage_elapse (st : Tracker) (t : Nat) (k : String) :
    lookupUsage (elapse t st) k = (lookupUsage st k).map (fireTimer t) := by
  obtain ⟨pool, usage⟩ := st
  simp only [lookupUsage, elapse]
  induction usage with
  | nil => rfl
  | cons p rest ih =>
    by_cases hp : p.1 == k
    · simp [List.find?_cons, hp]
    · simp only [List.map_cons, List.find?_cons, hp, Bool.false_eq_true, if_false]
      simpa [hp] using ih

/-- Claim C5: once a credential's consecutive-failure counter reaches the
threshold 3 via `recordError`, it immediately becomes ineligible for selection
(at every instant before the 5-minute cool-down deadline it is excluded from
`getAvailableKeys`), and once the cool-down elapses the timer reinstates it
with the failure counter cleared, making it eligible again as soon as the
window-quota and spacing conditions hold. -/
theorem recordError_cooldown (st : Tracker) (k : String) (now : Nat) (u : KeyUsage)
    (hu : lookupUsage st k = some u)
    (hthr : maxConsecutiveErrors ≤ u.consecutiveErrors + 1)
    (htimer : u.reactivateAt = none) :
    (∀ t count, t < now + cooldownMs →
        k ∉ getAvailableKeys (elapse t (recordError st k now)) count t) ∧
    (∀ t, now + cooldownMs ≤ t →
        ∃ u2, lookupUsage (elapse t (recordError st k now)) k = some u2 ∧
          u2.isActive = true ∧ u2.consecutiveErrors = 0 ∧
          u2.requests = u.requests ∧ u2.lastRequest = u.lastRequest ∧
          ((cleanedRequests t u2).length < maxRequestsPerKey →
            minInterval ≤ t - u2.lastRequest →
            eligibleKey (elapse t (recordError st k now)) t k = true)) := by
  have hrec : lookupUsage (recordError st k now) k =
      some { u with consecutiveErrors := u.consecutiveErrors + 1
                    isActive := false
                    reactivateAt := some (now + cooldownMs) } := by
    rw [recordError, lookupUsage_updateUsage_self, hu]
    simp [hthr]
  constructor
  · intro t count ht
    apply not_mem_getAvailableKeys_of_not_eligible
    have hlook : lookupUsage (elapse t (recordError st k now)) k =
        some { u with consecutiveErrors := u.consecutiveErrors + 1
                      isActive := false
                      reactivateAt := some (now + cooldownMs) } := by
      rw [lookupUsage_elapse, hrec]
      simp [fireTimer, Nat.not_le.mpr ht]
    simp [eligibleKey, hlook]
  · intro t ht
    have hlook : lookupUsage (elapse t (recordError st k now)) k =
        some { u with consecutiveErrors := 0
                      isActive := true
                      reactivateAt := none } := by
      rw [lookupUsage_elapse, hrec]
      simp [fireTimer, ht]
    refine ⟨_, hlook, rfl, rfl, rfl, rfl, ?_⟩
    intro hquota hspace
    simp [eligibleKey, hlook, canUseKey, cleanedRequests, maxConsecutiveErrors] at hquota hspace ⊢
    exact ⟨hquota, hspace⟩

/-- Concrete one-key tracker whose key is one failure away from the
suspension threshold. -/
def demoTrackerErr : Tracker :=
  { keyPool := ["k1"], keyUsage := [("k1", ⟨[], 0, 2, true, none⟩)] }

theorem recordError_cooldown_witness :
    (("k1" : String) ∉ getAvailableKeys (elapse 5000 (recordError demoTrackerErr "k1" 1000)) 1 5000) ∧
    (∃ u2, lookupUsage (elapse 301000 (recordError demoTrackerErr "k1" 1000)) "k1" = some u2 ∧
      u2.isActive = true ∧ u2.consecutiveErrors = 0 ∧
      u2.requests = [] ∧ u2.lastRequest = 0 ∧
      ((cleanedRequests 301000 u2).length < maxRequestsPerKey →
        minInterval ≤ 301000 - u2.lastRequest →
        eligibleKey (elapse 301000 (recordError demoTrackerErr "k1" 1000)) 301000 "k1" = true)) :=
  ⟨(recordError_cooldown demoTrackerErr "k1" 1000 ⟨[], 0, 2, true, none⟩ (by decide) (by decide)
      rfl).1 5000 1 (by decide),
   (recordError_cooldown demoTrackerErr "k1" 1000 ⟨[], 0, 2, true, none⟩ (by decide) (by decide)
      rfl).2 301000 (by decide)⟩

/-- One entry of the `prompts` argument of `makeParallelRequests` (line 250). -/
structure Prompt where
  id : String
  prompt : String
  deriving Repr, DecidableEq

/-- One entry of the result list of `makeParallelRequests`: `{ id, result, error? }`
(lines 266-272). -/
structure ReqResult where
  id : String
  result : String
  error : Option String
  deriving Repr, DecidableEq

/-- The batch slices visited by the loop of lines 257-283:
`prompts.slice(i, i + batchSize)` for `i = 0, batchSize, 2*batchSize, ...`.
The `b = 0` branch is a placeholder never reached by `makeParallelRequests`,
which reports divergence before slicing when the batch size is zero. -/
def chunks (b : Nat) : (l : List α) → List (List α)
  | [] => []
  | x :: xs =>
    if h : b = 0 then []
    else (x :: xs).take b :: chunks b ((x :: xs).drop b)
termination_by l => l.length
decreasing_by simp [List.length_drop]; omega

/-- Keys assigned to the members of one batch by lines 259-264: the item at
batch index `i` uses `availableKeys[i % availableKeys.length]` and
`recordRequest` is called with that key; this log collects the
`(prompt id, api key)` pair of every dispatch attempt of the batch. -/
def dispatchLog (keys : List String) : Nat → List Prompt → List (String × String)
  | _, [] => []
  | i, p :: rest => (p.id, keys.getD (i % keys.length) "") :: dispatchLog keys (i + 1) rest

/-- Results of one batch (lines 259-274): each item is dispatched through
`makeRequestWithKey` (abstracted as the outcome function `net`), a success
becomes `{ id, result }` and a caught error becomes `{ id, result: '', error }`. -/
def dispatchBatch (net : Prompt → String → Except String String) (keys : List String) :
    Nat → List Prompt → List ReqResult
  | _, [] => []
  | i, p :: rest =>
    (match net p (keys.getD (i % keys.length) "") with
     | .ok r => ⟨p.id, r, none⟩
     | .error e => ⟨p.id, "", some e⟩) :: dispatchBatch net keys (i + 1) rest

/-- `GeminiService.makeParallelRequests` (lines 250-286) given the key list
selected at entry (line 251).  The value is `none` when the source diverges:
with a non-empty prompt list and `batchSize = Math.min(availableKeys.length,
prompts.length) = 0` the loop `for (let i = 0; i < prompts.length; i +=
batchSize)` never advances `i` and never dispatches.  Otherwise the value
carries the log of dispatch attempts and the collected results. -/
def makeParallelRequests (net : Prompt → String → Except String String)
    (keys : List String) (prompts : List Prompt) :
    Option (List (String × String) × List ReqResult) :=
  if prompts.isEmpty then some ([], [])
  else if min keys.length prompts.length = 0 then none
  else some
    (((chunks (min keys.length prompts.length) prompts).map (dispatchLog keys 0)).flatten,
     ((chunks (min keys.length prompts.length) prompts).map (dispatchBatch net keys 0)).flatten)

/-- Number of loop iterations (batches) of `makeParallelRequests`. -/
def parallelBatchCount (keys : List String) (prompts : List Prompt) : Nat :=
  (chunks (min keys.length prompts.length) prompts).length

/-- `makeParallelRequests` wired to the rate limiter exactly as at line 251:
the key list is `rateLimiter.getAvailableKeys(prompts.length)`. -/
def makeParallelRequestsFull (net : Prompt → String → Except String String)
    (st : Tracker) (now : Nat) (prompts : List Prompt) :
    Option (List (String × String) × List ReqResult) :=
  makeParallelRequests net (getAvailableKeys st prompts.length now) prompts

theorem chunks_join (b : Nat) (hb : b ≠ 0) :
    ∀ l : List α, (chunks b l).flatten = l := by
  have H : ∀ (n : Nat) (l : List α), l.length ≤ n → (chunks b l).flatten = l := by
    intro n
    induction n with
    | zero =>
      intro l hl
      rw [List.length_eq_zero.mp (Nat.le_zero.mp hl)]
      simp [chunks]
    | succ n ih =>
      intro l hl
      cases l with
      | nil => simp [chunks]
      | cons x xs =>
        have hdl : ((x :: xs).drop b).length ≤ n := by
          simp only [List.length_drop, List.length_cons]
          simp only [List.length_cons] at hl
          omega
        rw [chunks, dif_neg hb, List.flatten_cons, ih ((x :: xs).drop b) hdl,
          List.take_append_drop]
  intro l
  exact H l.length l le_rfl

theorem chunks_length (b : Nat) (hb : b ≠ 0) :
    ∀ l : List α, (chunks b l).length = (l.length + b - 1) / b := by
  have H : ∀ (n : Nat) (l : List α), l.length ≤ n → (chunks b l).length = (l.length + b - 1) / b := by
    intro n
    induction n with
    | zero =>
      intro l hl
      rw [List.length_eq_zero.mp (Nat.le_zero.mp hl)]
      simp only [chunks, List.length_nil]
      rw [Nat.div_eq_of_lt (by omega)]
    | succ n ih =>
      intro l hl
      cases l with
      | nil =>
        simp only [chunks, List.length_nil]
        rw [Nat.div_eq_of_lt (by omega)]
      | cons x xs =>
        have hdl : ((x :: xs).drop b).length ≤ n := by
          simp only [List.length_drop, List.length_cons]
          simp only [List.length_cons] at hl
          omega
        rw [chunks, dif_neg hb]
        simp only [List.length_cons]
        rw [ih ((x :: xs).drop b) hdl]
        simp only [List.length_drop, List.length_cons]
        rcases le_or_lt (xs.length + 1) b with hle | hgt
        · have h1 : xs.length + 1 - b = 0 := by omega
          rw [h1]
          rw [Nat.div_eq_of_lt (by omega)]
          have h2 : 1 * b ≤ xs.length + 1 + b - 1 := by omega
          have h3 : xs.length + 1 + b - 1 < (1 + 1) * b := by omega
          rw [Nat.div_eq_of_lt_le h2 h3]
        · have h4 : xs.length + 1 + b - 1 = (xs.length + 1 - b + b - 1) + b := by omega
          rw [h4, Nat.add_div_right _ (Nat.pos_of_ne_zero hb)]
  intro l
  exact H l.length l le_rfl

theorem dispatchLog_ids (keys : List String) :
    ∀ (i : Nat) (batch : List Prompt),
      (dispatchLog keys i batch).map Prod.fst = batch.map Prompt.id := by
  intro i batch
  induction batch generalizing i with
  | nil => rfl
  | cons p rest ih => simp [dispatchLog, ih]

theorem dispatchBatch_ids (net : Prompt → String → Except String String) (keys : List String) :
    ∀ (i : Nat) (batch : List Prompt),
      (dispatchBatch net keys i batch).map ReqResult.id = batch.map Prompt.id := by
  intro i batch
  induction batch generalizing i with
  | nil => rfl
  | cons p rest ih =>
    simp only [dispatchBatch, List.map_cons, ih]
    cases net p (keys.getD (i % keys.length) "") <;> rfl

/-- Claim C1: for every list of `m` prompts processed by `makeParallelRequests`
with `k` configured credentials, exactly `m` dispatch attempts are issued in
total (each prompt dispatched exactly once, in order), grouped into
`ceil(m / min(k, e))` batches where `e` is the number of eligible credentials
at selection time.  The claim's batch formula requires `e ≥ 1`; the
zero-eligible case does not terminate (see the divergence theorem for C3). -/
theorem makeParallelRequests_dispatch_count (net : Prompt → String → Except String String)
    (st : Tracker) (now : Nat) (prompts : List Prompt)
    (he : 0 < (getAvailableKeys st prompts.length now).length) :
    ∃ log results,
      makeParallelRequestsFull net st now prompts = some (log, results) ∧
      log.length = prompts.length ∧
      log.map Prod.fst = prompts.map Prompt.id ∧
      parallelBatchCount (getAvailableKeys st prompts.length now) prompts =
        (prompts.length +
            min st.keyPool.length (getAvailableKeys st prompts.length now).length - 1) /
          min st.keyPool.length (getAvailableKeys st prompts.length now).length := by
  set keys := getAvailableKeys st prompts.length now with hkeys
  have hkm : keys.length ≤ prompts.length := length_getAvailableKeys_le st prompts.length now
  have hkp : keys.length ≤ st.keyPool.length := length_getAvailableKeys_le_pool st prompts.length now
  have hminp : min st.keyPool.length keys.length = keys.length := Nat.min_eq_right hkp
  have hbs : min keys.length prompts.length = keys.length := Nat.min_eq_left hkm
  have hbs0 : min keys.length prompts.length ≠ 0 := by omega
  have hne : prompts.isEmpty = false := by
    cases hp : prompts with
    | nil =>
      rw [hp] at hkm
      simp only [List.length_nil, Nat.le_zero] at hkm
      omega
    | cons p rest => rfl
  have hrun : makeParallelRequestsFull net st now prompts = some
      (((chunks (min keys.length prompts.length) prompts).map (dispatchLog keys 0)).flatten,
       ((chunks (min keys.length prompts.length) prompts).map (dispatchBatch net keys 0)).flatten) := by
    simp only [makeParallelRequestsFull, makeParallelRequests, ← hkeys]
    rw [if_neg (by simp [hne]), if_neg hbs0]
  have hids : (((chunks (min keys.length prompts.length) prompts).map
      (dispatchLog keys 0)).flatten).map Prod.fst = prompts.map Prompt.id := by
    rw [List.map_flatten, List.map_map]
    have hcong : (chunks (min keys.length prompts.length) prompts).map
        (List.map Prod.fst ∘ dispatchLog keys 0) =
        (chunks (min keys.length prompts.length) prompts).map (List.map Prompt.id) := by
      apply List.map_congr_left
      intro batch hbatch
      exact dispatchLog_ids keys 0 batch
    rw [hcong, ← List.map_flatten, chunks_join _ hbs0]
  refine ⟨_, _, hrun, ?_, hids, ?_⟩
  · rw [← List.length_map _ Prod.fst, hids, List.length_map]
  · rw [parallelBatchCount, chunks_length _ hbs0, hbs, hminp]

/-- Concrete three-prompt task list for instantiating the orchestrator theorems. -/
def demoPrompts : List Prompt := [⟨"p1", "a"⟩, ⟨"p2", "b"⟩, ⟨"p3", "c"⟩]

/-- Concrete outcome function: every dispatch succeeds with payload `out`. -/
def demoNet : Prompt → String → Except String String := fun _ _ => .ok "out"

theorem makeParallelRequests_dispatch_count_witness :
    ∃ log results,
      makeParallelRequestsFull demoNet demoTracker 5000 demoPrompts = some (log, results) ∧
      log.length = demoPrompts.length ∧
      log.map Prod.fst = demoPrompts.map Prompt.id ∧
      parallelBatchCount (getAvailableKeys demoTracker demoPrompts.length 5000) demoPrompts =
        (demoPrompts.length +
            min demoTracker.keyPool.length
              (getAvailableKeys demoTracker demoPrompts.length 5000).length - 1) /
          min demoTracker.keyPool.length
            (getAvailableKeys demoTracker demoPrompts.length 5000).length :=
  makeParallelRequests_dispatch_count demoNet demoTracker 5000 demoPrompts (by decide)

/-- Concrete one-key tracker whose key is suspended (three consecutive errors,
inactive), so that no credential is eligible for selection. -/
def suspendedTracker : Tracker :=
  { keyPool := ["k1"], keyUsage := [("k1", ⟨[], 0, 3, false, none⟩)] }

/-- Claim C3 (divergence witness): with one pending prompt and no eligible
credential, `makeParallelRequests` computes `batchSize = Math.min(0, 1) = 0`
and the loop `for (let i = 0; i < prompts.length; i += batchSize)` never
advances `i`: the call never terminates and never dispatches the task,
contradicting the claim that every task list is attempted exactly once and the
call terminates regardless of how many credentials are eligible. -/
theorem makeParallelRequests_diverges_without_keys :
    makeParallelRequestsFull (fun _ _ => Except.ok "out") suspendedTracker 0
      [⟨"p1", "hello"⟩] = none := by
  rfl

/-- JavaScript whitespace characters recognised by `String.prototype.trim`
(ASCII subset; the responses handled by the service are ASCII). -/
def isJsWhitespace (c : Char) : Bool :=
  c = ' ' || c = '\t' || c = '\n' || c = '\r' || c = '\x0b' || c = '\x0c'

/-- `String.prototype.trim` on a character list: drop whitespace from both ends. -/
def jsTrim (l : List Char) : List Char :=
  ((l.dropWhile isJsWhitespace).reverse.dropWhile isJsWhitespace).reverse

/-- `response.trim()` on strings. -/
def jsTrimStr (s : String) : String :=
  ⟨jsTrim s.data⟩

/-- The global replacement `response.replace(/```json\n?/g, '')` of line 289:
every occurrence of three backticks followed by `json` and an optional
newline is removed, scanning left to right. -/
def stripJsonFence : List Char → List Char
  | '\x60' :: '\x60' :: '\x60' :: 'j' :: 's' :: 'o' :: 'n' :: '\n' :: rest => stripJsonFence rest
  | '\x60' :: '\x60' :: '\x60' :: 'j' :: 's' :: 'o' :: 'n' :: rest => stripJsonFence rest
  | c :: rest => c :: stripJsonFence rest
  | [] => []

/-- The global replacement `.replace(/```\n?/g, '')` of line 289: every
occurrence of three backticks followed by an optional newline is removed. -/
def stripFence : List Char → List Char
  | '\x60' :: '\x60' :: '\x60' :: '\n' :: rest => stripFence rest
  | '\x60' :: '\x60' :: '\x60' :: rest => stripFence rest
  | c :: rest => c :: stripFence rest
  | [] => []

/-- `cleaned.indexOf('{')` of line 292 (`none` encodes `-1`). -/
def firstBraceIdx (l : List Char) : Option Nat :=
  l.findIdx? (fun c => c = '\x7b')

/-- `cleaned.lastIndexOf('}')` of line 293 (`none` encodes `-1`). -/
def lastBraceIdx (l : List Char) : Option Nat :=
  (l.reverse.findIdx? (fun c => c = '\x7d')).map (fun i => l.length - 1 - i)

/-- Lines 292-297 of `cleanJsonResponse`: when a `{` occurs strictly before a
`}`, keep only `cleaned.substring(firstBrace, lastBrace + 1)`. -/
def cleanSlice (cleaned : List Char) : List Char :=
  match firstBraceIdx cleaned, lastBraceIdx cleaned with
  | some fb, some lb =>
    if fb < lb then (cleaned.drop fb).take (lb + 1 - fb) else cleaned
  | _, _ => cleaned

/-- `GeminiService.cleanJsonResponse` (lines 288-300): strip markup fences,
trim, slice between the outermost braces when present, and trim the result. -/
def cleanJsonResponse (response : String) : String :=
  ⟨jsTrim (cleanSlice (jsTrim (stripFence (stripJsonFence response.data))))⟩

/-- Timeout of the `AbortController` in `makeRequestWithKey`: 30000 ms (line 159). -/
def requestTimeoutMs : Nat := 30000

/-- One part of a candidate's content: `parts[i].text` may be absent. -/
structure GeminiPart where
  text : Option String
  deriving Repr, DecidableEq

/-- Content of a candidate: `candidates[0].content.parts`. -/
structure GeminiContent where
  parts : List GeminiPart
  deriving Repr, DecidableEq

/-- One candidate: `content` may be absent. -/
structure GeminiCandidate where
  content : Option GeminiContent
  deriving Repr, DecidableEq

/-- Parsed response body: `data.candidates` (an absent field and an empty list
both fail the `!data.candidates || !data.candidates[0]` check of line 212 and
are both embedded as the empty list). -/
structure GeminiData where
  candidates : List GeminiCandidate
  deriving Repr, DecidableEq

/-- Outcome of the single `fetch` call of `makeRequestWithKey` (line 193),
as observed by the surrounding code: the promise rejects (network failure, or
the 30-second timeout firing the abort), or a response arrives with its `ok`
flag, status, body text, and — when the body is read as JSON — either a parse
failure (`none`) or the parsed structure. -/
inductive HttpResult where
  | fetchFailure (msg : String)
  | httpResponse (status : Nat) (ok : Bool) (body : String) (json : Option GeminiData)
  deriving Repr, DecidableEq

/-- Bookkeeping calls made on the shared rate limiter. -/
inductive TrackerEffect where
  | recordError (key : String)
  | recordSuccess (key : String)
  deriving Repr, DecidableEq

/-- `GeminiService.makeRequestWithKey` (lines 154-230) as a function of the
fetch outcome: the returned value is the propagated result (the thrown error
message or the extracted text) paired with the list of rate-limiter calls
made.  Lines 204-208 record an error and throw on a non-ok response; a
rejected fetch, a JSON parse failure of the body, a missing candidate or
content (line 212), a missing first part (a TypeError on line 216), and a
missing or blank text (lines 217-219) all throw without recording; only the
success path (line 221) records success. -/
def makeRequestWithKey (apiKey : String) (res : HttpResult) :
    Except String String × List TrackerEffect :=
  match res with
  | .fetchFailure msg => (.error msg, [])
  | .httpResponse status ok body json =>
    if ok = false then
      (.error ("HTTP " ++ toString status ++ ": " ++ body), [.recordError apiKey])
    else
      match json with
      | none => (.error "SyntaxError: unexpected token in JSON", [])
      | some data =>
        match data.candidates.head? with
        | none => (.error "Invalid response structure", [])
        | some cand =>
          match cand.content with
          | none => (.error "Invalid response structure", [])
          | some content =>
            match content.parts.head? with
            | none => (.error "TypeError: cannot read properties of undefined", [])
            | some part =>
              match part.text with
              | none => (.error "Empty response content", [])
              | some t =>
                if (jsTrimStr t).length = 0 then (.error "Empty response content", [])
                else (.ok t, [.recordSuccess apiKey])

/-- Discriminates the only outcome on which the source calls
`rateLimiter.recordError`: an HTTP response whose `ok` flag is false. -/
def isHttpNonOk : HttpResult → Bool
  | .httpResponse _ ok _ _ => !ok
  | _ => false

/-- Claim C2 (counterexample): the claim states that every non-success outcome
— including a network failure — records a failure against the credential via
`recordError`; on a rejected fetch the source propagates the error but makes
no rate-limiter call at all. -/
theorem makeRequestWithKey_network_failure_not_recorded :
    makeRequestWithKey "k1" (.fetchFailure "network down") =
      (Except.error "network down", []) ∧
    TrackerEffect.recordError "k1" ∉ (makeRequestWithKey "k1" (.fetchFailure "network down")).2 :=
  ⟨rfl, by simp [makeRequestWithKey]⟩

/-- The text payload the success path of `makeRequestWithKey` extracts
(lines 210-224): the first part's text of the first candidate's content of an
ok response with a JSON body, provided it is present and not blank; `none`
when any of these checks fails, i.e. on every non-success outcome. -/
def extractedText : HttpResult → Option String
  | .httpResponse _ true _ (some data) =>
    (match data.candidates.head? with
     | some cand =>
       match cand.content with
       | some content =>
         (match content.parts.head? with
          | some part =>
            match part.text with
            | some t => if (jsTrimStr t).length = 0 then none else some t
            | none => none
          | none => none)
       | none => none
     | none => none)
  | _ => none

theorem makeRequestWithKey_ok_iff (apiKey : String) (res : HttpResult) (t : String) :
    (makeRequestWithKey apiKey res).1 = .ok t ↔ extractedText res = some t := by
  cases res with
  | fetchFailure msg => simp [makeRequestWithKey, extractedText]
  | httpResponse status ok body json =>
    cases ok with
    | false => simp [makeRequestWithKey, extractedText]
    | true =>
      cases json with
      | none => simp [makeRequestWithKey, extractedText]
      | some data =>
        cases hc : data.candidates.head? with
        | none => simp [makeRequestWithKey, extractedText, hc]
        | some cand =>
          cases hcc : cand.content with
          | none => simp [makeRequestWithKey, extractedText, hc, hcc]
          | some content =>
            cases hp : content.parts.head? with
            | none => simp [makeRequestWithKey, extractedText, hc, hcc, hp]
            | some part =>
              cases hpt : part.text with
              | none => simp [makeRequestWithKey, extractedText, hc, hcc, hp, hpt]
              | some t0 =>
                by_cases hlen : (jsTrimStr t0).length = 0
                · simp [makeRequestWithKey, extractedText, hc, hcc, hp, hpt, hlen]
                · simp [makeRequestWithKey, extractedText, hc, hcc, hp, hpt, hlen]

/-- Claim C2 (amended): `makeRequestWithKey` issues a single outbound call
bounded by the fixed 30-second timeout and propagates every non-success
outcome — network failure, timeout, non-2xx HTTP status, malformed payload,
empty payload, i.e. every outcome on which the extraction of lines 210-224
fails — as an error to the caller, but records a failure against the
credential only when the outcome is a non-2xx HTTP response; the other
non-success outcomes are propagated without recording.  On success it records
success and returns exactly the extracted text payload (the result is `ok t`
precisely when the extraction yields `t`). -/
theorem makeRequestWithKey_error_accounting (apiKey : String) (res : HttpResult) :
    (TrackerEffect.recordError apiKey ∈ (makeRequestWithKey apiKey res).2 ↔
      isHttpNonOk res = true) ∧
    (isHttpNonOk res = true → ∃ e, (makeRequestWithKey apiKey res).1 = .error e) ∧
    (∀ t, (makeRequestWithKey apiKey res).1 = .ok t →
      (makeRequestWithKey apiKey res).2 = [.recordSuccess apiKey]) ∧
    (∀ e, (makeRequestWithKey apiKey res).1 = .error e →
      TrackerEffect.recordSuccess apiKey ∉ (makeRequestWithKey apiKey res).2) ∧
    (∀ t, (makeRequestWithKey apiKey res).1 = .ok t ↔ extractedText res = some t) ∧
    (extractedText res = none → ∃ e, (makeRequestWithKey apiKey res).1 = .error e) := by
  have hE : ∀ t, (makeRequestWithKey apiKey res).1 = .ok t ↔ extractedText res = some t :=
    fun t => makeRequestWithKey_ok_iff apiKey res t
  have hF : extractedText res = none → ∃ e, (makeRequestWithKey apiKey res).1 = .error e := by
    intro hnone
    cases hres : (makeRequestWithKey apiKey res).1 with
    | error e => exact ⟨e, rfl⟩
    | ok t =>
      rw [(hE t).mp hres] at hnone
      exact absurd hnone (by simp)
  have hold : (TrackerEffect.recordError apiKey ∈ (makeRequestWithKey apiKey res).2 ↔
      isHttpNonOk res = true) ∧
    (isHttpNonOk res = true → ∃ e, (makeRequestWithKey apiKey res).1 = .error e) ∧
    (∀ t, (makeRequestWithKey apiKey res).1 = .ok t →
      (makeRequestWithKey apiKey res).2 = [.recordSuccess apiKey]) ∧
    (∀ e, (makeRequestWithKey apiKey res).1 = .error e →
      TrackerEffect.recordSuccess apiKey ∉ (makeRequestWithKey apiKey res).2) := by
    cases res with
    | fetchFailure msg =>
      refine ⟨by simp [makeRequestWithKey, isHttpNonOk], by simp [isHttpNonOk], ?_, ?_⟩
      · intro t ht
        simp [makeRequestWithKey] at ht
      · intro e he hmem
        simp [makeRequestWithKey] at hmem
    | httpResponse status ok body json =>
      cases ok with
      | false =>
        refine ⟨by simp [makeRequestWithKey, isHttpNonOk], ?_, ?_, ?_⟩
        · intro h
          exact ⟨"HTTP " ++ toString status ++ ": " ++ body, by simp [makeRequestWithKey]⟩
        · intro t ht
          simp [makeRequestWithKey] at ht
        · intro e he hmem
          simp [makeRequestWithKey] at hmem
      | true =>
        have hok : isHttpNonOk (.httpResponse status true body json) = false := by
          simp [isHttpNonOk]
        refine ⟨?_, by simp [hok], ?_, ?_⟩
        · simp only [hok, Bool.false_eq_true, iff_false]
          cases json with
          | none => simp [makeRequestWithKey]
          | some data =>
            cases hc : data.candidates.head? with
            | none => simp [makeRequestWithKey, hc]
            | some cand =>
              cases hcc : cand.content with
              | none => simp [makeRequestWithKey, hc, hcc]
              | some content =>
                cases hp : content.parts.head? with
                | none => simp [makeRequestWithKey, hc, hcc, hp]
                | some part =>
                  cases hpt : part.text with
                  | none => simp [makeRequestWithKey, hc, hcc, hp, hpt]
                  | some t =>
                    by_cases hlen : (jsTrimStr t).length = 0
                    · simp [makeRequestWithKey, hc, hcc, hp, hpt, hlen]
                    · simp [makeRequestWithKey, hc, hcc, hp, hpt, hlen]
        · intro t ht
          cases json with
          | none => simp [makeRequestWithKey] at ht
          | some data =>
            cases hc : data.candidates.head? with
            | none => simp [makeRequestWithKey, hc] at ht
            | some cand =>
              cases hcc : cand.content with
              | none => simp [makeRequestWithKey, hc, hcc] at ht
              | some content =>
                cases hp : content.parts.head? with
                | none => simp [makeRequestWithKey, hc, hcc, hp] at ht
                | some part =>
                  cases hpt : part.text with
                  | none => simp [makeRequestWithKey, hc, hcc, hp, hpt] at ht
                  | some t0 =>
                    by_cases hlen : (jsTrimStr t0).length = 0
                    · simp [makeRequestWithKey, hc, hcc, hp, hpt, hlen] at ht
                    · simp [makeRequestWithKey, hc, hcc, hp, hpt, hlen] at ht ⊢
        · intro e he
          cases json with
          | none => simp [makeRequestWithKey]
          | some data =>
            cases hc : data.candidates.head? with
            | none => simp [makeRequestWithKey, hc]
            | some cand =>
              cases hcc : cand.content with
              | none => simp [makeRequestWithKey, hc, hcc]
              | some content =>
                cases hp : content.parts.head? with
                | none => simp [makeRequestWithKey, hc, hcc, hp]
                | some part =>
                  cases hpt : part.text with
                  | none => simp [makeRequestWithKey, hc, hcc, hp, hpt]
                  | some t0 =>
                    by_cases hlen : (jsTrimStr t0).length = 0
                    · simp [makeRequestWithKey, hc, hcc, hp, hpt, hlen]
                    · simp [makeRequestWithKey, hc, hcc, hp, hpt, hlen] at he
  exact ⟨hold.1, hold.2.1, hold.2.2.1, hold.2.2.2, hE, hF⟩

theorem makeRequestWithKey_error_accounting_witness :
    (TrackerEffect.recordError "k1" ∈
      (makeRequestWithKey "k1" (.httpResponse 500 false "boom" none)).2 ↔
      isHttpNonOk (.httpResponse 500 false "boom" none) = true) ∧
    (∃ e, (makeRequestWithKey "k1" (.httpResponse 500 false "boom" none)).1 = .error e) ∧
    (makeRequestWithKey "k1"
        (.httpResponse 200 true "body" (some ⟨[⟨some ⟨[⟨some "payload"⟩]⟩⟩]⟩))).2 =
      [.recordSuccess "k1"] ∧
    ((makeRequestWithKey "k1"
        (.httpResponse 200 true "body" (some ⟨[⟨some ⟨[⟨some "payload"⟩]⟩⟩]⟩))).1 =
        .ok "payload" ↔
      extractedText (.httpResponse 200 true "body" (some ⟨[⟨some ⟨[⟨some "payload"⟩]⟩⟩]⟩)) =
        some "payload") ∧
    (∃ e, (makeRequestWithKey "k1" (.fetchFailure "network down")).1 = .error e) :=
  ⟨(makeRequestWithKey_error_accounting "k1" (.httpResponse 500 false "boom" none)).1,
   (makeRequestWithKey_error_accounting "k1" (.httpResponse 500 false "boom" none)).2.1 (by decide),
   (makeRequestWithKey_error_accounting "k1"
      (.httpResponse 200 true "body" (some ⟨[⟨some ⟨[⟨some "payload"⟩]⟩⟩]⟩))).2.2.1 "payload"
      rfl,
   (makeRequestWithKey_error_accounting "k1"
      (.httpResponse 200 true "body" (some ⟨[⟨some ⟨[⟨some "payload"⟩]⟩⟩]⟩))).2.2.2.2.1 "payload",
   (makeRequestWithKey_error_accounting "k1" (.fetchFailure "network down")).2.2.2.2.2 rfl⟩

/-- Error message thrown by `makeRequest` when `API_KEYS.length === 0` (line 234). -/
def noKeysConfiguredMsg : String :=
  "No valid Gemini API keys configured. Please add your actual API keys to the .env file."

/-- Error message thrown by `makeRequest` when `getAvailableKeys(1)` is empty (line 240). -/
def allKeysBusyMsg : String :=
  "All API keys are currently busy or invalid. Please check your API keys and try again."

/-- Guard section of `GeminiService.makeRequest` (lines 232-247): with zero
configured keys it throws `noKeysConfiguredMsg`; with configured keys but no
eligible one it throws `allKeysBusyMsg`; otherwise it proceeds with the first
selected key (the pool of the tracker is exactly the configured `API_KEYS`
list, pushed one-for-one by the constructor). -/
def makeRequestSelect (st : Tracker) (now : Nat) : Except String String :=
  if st.keyPool.length = 0 then .error noKeysConfiguredMsg
  else
    match getAvailableKeys st 1 now with
    | [] => .error allKeysBusyMsg
    | k :: _ => .ok k

/-- Claim C9 (counterexample): the claim states that `makeRequest` raises
exactly the same outcome for zero configured credentials as for no eligible
credential; the source throws two different error messages for the two
conditions. -/
theorem makeRequest_distinct_errors_counterexample :
    makeRequestSelect ⟨[], []⟩ 0 = .error noKeysConfiguredMsg ∧
    makeRequestSelect suspendedTracker 0 = .error allKeysBusyMsg ∧
    noKeysConfiguredMsg ≠ allKeysBusyMsg :=
  ⟨rfl, rfl, by decide⟩

/-- Claim C9 (amended): both conditions raise an error to the caller — the
tracker itself raises nothing and signals exhaustion by an empty selection —
but the two errors carry distinct messages, so the source does distinguish a
configuration error from transient exhaustion (in the message text only; both
are plain thrown errors). -/
theorem makeRequest_exhaustion_spec (st : Tracker) (now : Nat) :
    (st.keyPool.length = 0 → makeRequestSelect st now = .error noKeysConfiguredMsg) ∧
    (st.keyPool.length ≠ 0 → getAvailableKeys st 1 now = [] →
      makeRequestSelect st now = .error allKeysBusyMsg) ∧
    noKeysConfiguredMsg ≠ allKeysBusyMsg := by
  refine ⟨?_, ?_, by decide⟩
  · intro h
    simp [makeRequestSelect, h]
  · intro h hempty
    simp [makeRequestSelect, h, hempty]

theorem makeRequest_exhaustion_spec_witness :
    (makeRequestSelect ⟨[], []⟩ 0 = .error noKeysConfiguredMsg) ∧
    (makeRequestSelect suspendedTracker 0 = .error allKeysBusyMsg) :=
  ⟨(makeRequest_exhaustion_spec ⟨[], []⟩ 0).1 rfl,
   (makeRequest_exhaustion_spec suspendedTracker 0).2.1 (by decide) (by decide)⟩

theorem head?_dropWhile_false {p : Char → Bool} {l : List Char} {c : Char}
    (h : (l.dropWhile p).head? = some c) : p c = false := by
  have hm := List.head?_dropWhile_not p l
  rw [h] at hm
  exact hm

theorem dropWhile_eq_self_of_head {p : Char → Bool} {l : List Char} {c : Char}
    (hc : l.head? = some c) (hp : p c = false) : l.dropWhile p = l := by
  obtain ⟨t, rfl⟩ := List.head?_eq_some_iff.mp hc
  exact List.dropWhile_cons_of_neg (by simp [hp])

theorem jsTrim_eq_self {l : List Char} {c1 c2 : Char}
    (h1 : l.head? = some c1) (hp1 : isJsWhitespace c1 = false)
    (h2 : l.getLast? = some c2) (hp2 : isJsWhitespace c2 = false) :
    jsTrim l = l := by
  rw [jsTrim, dropWhile_eq_self_of_head h1 hp1,
    dropWhile_eq_self_of_head (by rw [List.head?_reverse]; exact h2) hp2,
    List.reverse_reverse]

theorem jsTrim_idem (l : List Char) : jsTrim (jsTrim l) = jsTrim l := by
  have hJ : jsTrim l =
      ((l.dropWhile isJsWhitespace).reverse.dropWhile isJsWhitespace).reverse := rfl
  cases hBc : (l.dropWhile isJsWhitespace).reverse.dropWhile isJsWhitespace with
  | nil =>
    rw [hJ, hBc]
    rfl
  | cons b B2 =>
    have hheadB : ((l.dropWhile isJsWhitespace).reverse.dropWhile isJsWhitespace).head? =
        some b := by
      rw [hBc]; rfl
    have hpb : isJsWhitespace b = false := head?_dropWhile_false hheadB
    have hAne : (l.dropWhile isJsWhitespace).reverse ≠ [] := by
      intro hnil
      rw [hnil] at hBc
      simp at hBc
    have hex : ∃ a, (l.dropWhile isJsWhitespace).head? = some a := by
      cases hAc : l.dropWhile isJsWhitespace with
      | nil => rw [hAc] at hAne; simp at hAne
      | cons a A2 => exact ⟨a, rfl⟩
    obtain ⟨a, hha⟩ := hex
    have hpa : isJsWhitespace a = false := head?_dropWhile_false hha
    have hsplit : (l.dropWhile isJsWhitespace).reverse =
        ((l.dropWhile isJsWhitespace).reverse.takeWhile isJsWhitespace) ++ (b :: B2) := by
      rw [← hBc, List.takeWhile_append_dropWhile]
    have hlastB : (b :: B2).getLast? = some a := by
      have h2 := congrArg List.getLast? hsplit
      rw [List.getLast?_reverse, List.getLast?_append, hha] at h2
      cases hx : (b :: B2).getLast? with
      | none =>
        rw [List.getLast?_eq_none_iff] at hx
        exact absurd hx (List.cons_ne_nil b B2)
      | some x =>
        rw [hx] at h2
        simp only [Option.or_some] at h2
        exact h2.symm
    rw [hJ, hBc]
    exact jsTrim_eq_self (by rw [List.head?_reverse]; exact hlastB) hpa
      (by rw [List.getLast?_reverse]; rfl) hpb

theorem stripJsonFence_cons_of_ne (c : Char) (rest : List Char) (hc : c ≠ '\x60') :
    stripJsonFence (c :: rest) = c :: stripJsonFence rest := by
  rw [stripJsonFence.eq_def]
  split <;> simp_all

theorem stripFence_cons_of_ne (c : Char) (rest : List Char) (hc : c ≠ '\x60') :
    stripFence (c :: rest) = c :: stripFence rest := by
  rw [stripFence.eq_def]
  split <;> simp_all

theorem stripJsonFence_append (l r : List Char) (hl : '\x60' ∉ l) :
    stripJsonFence (l ++ r) = l ++ stripJsonFence r := by
  induction l with
  | nil => rfl
  | cons c t ih =>
    have hc : c ≠ '\x60' := fun h => hl (h ▸ List.mem_cons_self c t)
    have ht : '\x60' ∉ t := fun h => hl (List.mem_cons_of_mem c h)
    rw [List.cons_append, stripJsonFence_cons_of_ne c (t ++ r) hc, ih ht]
    rfl

theorem stripFence_append (l r : List Char) (hl : '\x60' ∉ l) :
    stripFence (l ++ r) = l ++ stripFence r := by
  induction l with
  | nil => rfl
  | cons c t ih =>
    have hc : c ≠ '\x60' := fun h => hl (h ▸ List.mem_cons_self c t)
    have ht : '\x60' ∉ t := fun h => hl (List.mem_cons_of_mem c h)
    rw [List.cons_append, stripFence_cons_of_ne c (t ++ r) hc, ih ht]
    rfl

theorem stripJsonFence_of_no_backtick (l : List Char) (hl : '\x60' ∉ l) :
    stripJsonFence l = l := by
  have h := stripJsonFence_append l [] hl
  have h0 : stripJsonFence ([] : List Char) = [] := rfl
  rw [List.append_nil, h0, List.append_nil] at h
  exact h

theorem stripFence_of_no_backtick (l : List Char) (hl : '\x60' ∉ l) :
    stripFence l = l := by
  have h := stripFence_append l [] hl
  have h0 : stripFence ([] : List Char) = [] := rfl
  rw [List.append_nil, h0, List.append_nil] at h
  exact h

theorem stripJsonFence_sublist : ∀ l : List Char, List.Sublist (stripJsonFence l) l := by
  have H : ∀ (n : Nat) (l : List Char), l.length ≤ n → List.Sublist (stripJsonFence l) l := by
    intro n
    induction n with
    | zero =>
      intro l hl
      rw [List.length_eq_zero.mp (Nat.le_zero.mp hl)]
      exact List.Sublist.refl []
    | succ n ih =>
      intro l hl
      rw [stripJsonFence.eq_def]
      split
      next rest =>
        have hlen : rest.length ≤ n := by
          simp only [List.length_cons] at hl
          omega
        exact (ih rest hlen).trans
          (List.sublist_append_right ['\x60', '\x60', '\x60', 'j', 's', 'o', 'n', '\n'] rest)
      next rest h1 =>
        have hlen : rest.length ≤ n := by
          simp only [List.length_cons] at hl
          omega
        exact (ih rest hlen).trans
          (List.sublist_append_right ['\x60', '\x60', '\x60', 'j', 's', 'o', 'n'] rest)
      next c rest h1 h2 =>
        have hlen : rest.length ≤ n := by
          simp only [List.length_cons] at hl
          omega
        exact (ih rest hlen).cons₂ c
      next => exact List.Sublist.refl []
  intro l
  exact H l.length l le_rfl

theorem stripFence_sublist : ∀ l : List Char, List.Sublist (stripFence l) l := by
  have H : ∀ (n : Nat) (l : List Char), l.length ≤ n → List.Sublist (stripFence l) l := by
    intro n
    induction n with
    | zero =>
      intro l hl
      rw [List.length_eq_zero.mp (Nat.le_zero.mp hl)]
      exact List.Sublist.refl []
    | succ n ih =>
      intro l hl
      rw [stripFence.eq_def]
      split
      next rest =>
        have hlen : rest.length ≤ n := by
          simp only [List.length_cons] at hl
          omega
        exact (ih rest hlen).trans
          (List.sublist_append_right ['\x60', '\x60', '\x60', '\n'] rest)
      next rest h1 =>
        have hlen : rest.length ≤ n := by
          simp only [List.length_cons] at hl
          omega
        exact (ih rest hlen).trans
          (List.sublist_append_right ['\x60', '\x60', '\x60'] rest)
      next c rest h1 h2 =>
        have hlen : rest.length ≤ n := by
          simp only [List.length_cons] at hl
          omega
        exact (ih rest hlen).cons₂ c
      next => exact List.Sublist.refl []
  intro l
  exact H l.length l le_rfl

theorem jsTrim_sublist (l : List Char) : List.Sublist (jsTrim l) l := by
  have h2 : List.Sublist ((l.dropWhile isJsWhitespace).reverse.dropWhile isJsWhitespace).reverse
      (l.dropWhile isJsWhitespace) := by
    have := (List.dropWhile_sublist isJsWhitespace
      (l := (l.dropWhile isJsWhitespace).reverse)).reverse
    rwa [List.reverse_reverse] at this
  exact h2.trans (List.dropWhile_sublist _)

/-- Claim C6 (counterexample): the claim states that for every response with
no braces the cleaning step returns the original trimmed string; on the
brace-free fenced response three-backticks-json newline `hello` newline
three-backticks the source strips the fences and returns `hello`, not the
original trimmed string (which still carries the fences). -/
theorem cleanJsonResponse_no_brace_counterexample :
    cleanJsonResponse "```json\nhello\n```" = "hello" ∧
    jsTrimStr "```json\nhello\n```" = "```json\nhello\n```" ∧
    ("hello" : String) ≠ "```json\nhello\n```" := by
  refine ⟨by decide, by decide, by decide⟩

/-- Claim C6 (amended): for every well-formed JSON object text wrapped in
markup fences (fence-free content starting with `{` and ending with `}`),
`cleanJsonResponse` returns exactly the wrapped object text — the substring
from the first `{` to the last `}` of the fence-stripped response — so the
result parses as the intended JSON object; for every response containing no
braces it returns the fence-stripped trimmed text, which equals the original
trimmed string whenever the response carries no fence backticks. -/
theorem cleanJsonResponse_spec :
    (∀ s : String, s.data.head? = some '\x7b' → s.data.getLast? = some '\x7d' →
      '\x60' ∉ s.data →
      cleanJsonResponse ("```json\n" ++ s ++ "\n```") = s) ∧
    (∀ r : String, '\x7b' ∉ r.data → '\x7d' ∉ r.data →
      cleanJsonResponse r = ⟨jsTrim (stripFence (stripJsonFence r.data))⟩ ∧
      ('\x60' ∉ r.data → cleanJsonResponse r = jsTrimStr r)) := by
  constructor
  · intro s h1 h2 h3
    obtain ⟨t, hsd⟩ := List.head?_eq_some_iff.mp h1
    have hrev : ∃ u, s.data.reverse = '\x7d' :: u := by
      have h2r := h2
      rw [List.getLast?_eq_head?_reverse] at h2r
      exact List.head?_eq_some_iff.mp h2r
    obtain ⟨u, hsrev⟩ := hrev
    have hdata : ("```json\n" ++ s ++ "\n```").data
        = ['\x60', '\x60', '\x60', 'j', 's', 'o', 'n', '\n'] ++
          (s.data ++ ['\n', '\x60', '\x60', '\x60']) := by
      rw [String.data_append, String.data_append, List.append_assoc]
    have hstrip1 : stripJsonFence (("```json\n" ++ s ++ "\n```").data)
        = s.data ++ ['\n', '\x60', '\x60', '\x60'] := by
      rw [hdata]
      show stripJsonFence (s.data ++ ['\n', '\x60', '\x60', '\x60'])
          = s.data ++ ['\n', '\x60', '\x60', '\x60']
      rw [stripJsonFence_append _ _ h3]
      rfl
    have hstrip2 : stripFence (s.data ++ ['\n', '\x60', '\x60', '\x60'])
        = s.data ++ ['\n'] := by
      rw [stripFence_append _ _ h3]
      rfl
    have htrim : jsTrim (s.data ++ ['\n']) = s.data := by
      rw [jsTrim]
      have hh : (s.data ++ ['\n']).head? = some '\x7b' := by rw [hsd]; rfl
      rw [dropWhile_eq_self_of_head hh (by decide)]
      have hrev2 : (s.data ++ ['\n']).reverse = '\n' :: s.data.reverse := by
        rw [List.reverse_append]
        rfl
      rw [hrev2, List.dropWhile_cons_of_pos (by decide)]
      have hh2 : s.data.reverse.head? = some '\x7d' := by rw [hsrev]; rfl
      rw [dropWhile_eq_self_of_head hh2 (by decide), List.reverse_reverse]
    have hfb : firstBraceIdx s.data = some 0 := by
      rw [firstBraceIdx, hsd]
      simp [List.findIdx?_cons]
    have hlb : lastBraceIdx s.data = some (s.data.length - 1) := by
      rw [lastBraceIdx, hsrev]
      simp [List.findIdx?_cons]
    have htne : t ≠ [] := by
      intro ht0
      rw [ht0] at hsd
      rw [hsd] at hsrev
      simp at hsrev
    have hlen2 : 2 ≤ s.data.length := by
      rw [hsd]
      cases ht0 : t with
      | nil => exact absurd ht0 htne
      | cons a t3 => simp
    have hslice : cleanSlice s.data = s.data := by
      rw [cleanSlice, hfb, hlb]
      show (if 0 < s.data.length - 1 then
          List.take (s.data.length - 1 + 1 - 0) (List.drop 0 s.data) else s.data) = s.data
      rw [if_pos (by omega), List.drop_zero]
      have hx : s.data.length - 1 + 1 - 0 = s.data.length := by omega
      rw [hx, List.take_length]
    show (⟨jsTrim (cleanSlice (jsTrim (stripFence
      (stripJsonFence ("```json\n" ++ s ++ "\n```").data))))⟩ : String) = s
    rw [hstrip1, hstrip2, htrim, hslice, jsTrim_eq_self h1 (by decide) h2 (by decide)]
  · intro r hb1 hb2
    have hsub : List.Sublist (jsTrim (stripFence (stripJsonFence r.data))) r.data :=
      (jsTrim_sublist _).trans ((stripFence_sublist _).trans (stripJsonFence_sublist _))
    have hnb1 : '\x7b' ∉ jsTrim (stripFence (stripJsonFence r.data)) :=
      fun h => hb1 (hsub.subset h)
    have hfb : firstBraceIdx (jsTrim (stripFence (stripJsonFence r.data))) = none := by
      rw [firstBraceIdx]
      refine List.findIdx?_eq_none_iff.mpr ?_
      intro a ha
      simp only [decide_eq_false_iff_not]
      intro heq
      rw [heq] at ha
      exact hnb1 ha
    have hslice : cleanSlice (jsTrim (stripFence (stripJsonFence r.data)))
        = jsTrim (stripFence (stripJsonFence r.data)) := by
      rw [cleanSlice, hfb]
    have hmain : cleanJsonResponse r = ⟨jsTrim (stripFence (stripJsonFence r.data))⟩ := by
      show (⟨jsTrim (cleanSlice (jsTrim (stripFence (stripJsonFence r.data))))⟩ : String) = _
      rw [hslice, jsTrim_idem]
    refine ⟨hmain, ?_⟩
    intro h3
    rw [hmain, stripJsonFence_of_no_backtick _ h3, stripFence_of_no_backtick _ h3]
    rfl

theorem cleanJsonResponse_spec_witness :
    cleanJsonResponse ("```json\n" ++ "\x7b\"a\": 1\x7d" ++ "\n```") = "\x7b\"a\": 1\x7d" ∧
    cleanJsonResponse "plain text" = jsTrimStr "plain text" :=
  ⟨cleanJsonResponse_spec.1 "\x7b\"a\": 1\x7d" (by decide) (by decide) (by decide),
   (cleanJsonResponse_spec.2 "plain text" (by decide) (by decide)).2 (by decide)⟩

/-- One roadmap chapter as used by `generateDetailedCourse` (fields that feed
the per-chapter prompt; the remaining chapter fields are carried through
unchanged by the object spread and do not affect control flow). -/
structure Chapter where
  id : String
  title : String
  description : String
  estimatedHours : String
  deriving Repr, DecidableEq

/-- One entry of `detailedChapters`: the spread chapter together with the
parsed content (`none` encodes `null`) and the always-`null` quiz. -/
structure DetailedChapter where
  chapter : Chapter
  content : Option String
  quiz : Option String
  deriving Repr, DecidableEq

/-- The per-chapter prompt template of lines 406-454 (a JSON skeleton
interpolating the chapter title, description and estimated hours). -/
def chapterPromptText (subject : String) (ch : Chapter) : String :=
  "Create comprehensive course content for \"" ++ ch.title ++ "\" in " ++ subject ++
  ".\n\nIMPORTANT: Return ONLY valid JSON with NO additional text.\n\n\x7b\n  \"title\": \"" ++
  ch.title ++ "\",\n  \"description\": \"" ++ ch.description ++
  "\",\n  \"learningObjectives\": [\n    \"Understand " ++ ch.title ++
  " fundamentals\",\n    \"Apply concepts practically\"\n  ],\n  \"estimatedTime\": \"" ++
  ch.estimatedHours ++
  "\",\n  \"content\": \x7b\n    \"introduction\": \"Introduction to " ++ ch.title ++
  "...\",\n    \"mainContent\": \"Detailed explanation of " ++ ch.title ++
  " concepts...\",\n    \"keyPoints\": [\n      \"Key concept 1\",\n      \"Key concept 2\"\n    ],\n    \"summary\": \"Summary of " ++
  ch.title ++
  "...\"\n  \x7d,\n  \"videoId\": \"dQw4w9WgXcQ\",\n  \"codeExamples\": [\n    \x7b\n      \"title\": \"Basic Example\",\n      \"code\": \"// Example code\\nconsole.log(\x27" ++
  ch.title ++
  "\x27);\",\n      \"explanation\": \"This example demonstrates basic concepts.\"\n    \x7d\n  ],\n  \"practicalExercises\": [\n    \x7b\n      \"title\": \"Practice Exercise\",\n      \"description\": \"Apply what you learned\",\n      \"difficulty\": \"easy\"\n    \x7d\n  ],\n  \"additionalResources\": [\n    \x7b\n      \"title\": \"Documentation\",\n      \"url\": \"https://example.com\",\n      \"type\": \"documentation\",\n      \"description\": \"Official documentation\"\n    \x7d\n  ],\n  \"nextSteps\": [\n    \"Practice the exercises\",\n    \"Review examples\"\n  ]\n\x7d"

/-- The prompt entry built for a chapter at lines 404-455: the id is
`chapter-` followed by the chapter id. -/
def chapterPrompt (subject : String) (ch : Chapter) : Prompt :=
  ⟨"chapter-" ++ ch.id, chapterPromptText subject ch⟩

/-- Result handling for one batch of `generateDetailedCourse` (lines 459-492):
run the batch through the orchestrator (`runBatch` stands for
`makeParallelRequests` on this batch's prompts), then for each chapter find
its result by id; a found result with no error is cleaned and parsed (`parse`
stands for `JSON.parse`, returning `none` on a parse failure, in which case
the chapter is kept with `null` content), and a missing result or an error
result also keeps the chapter with `null` content. -/
def processChapterBatch (runBatch : List Prompt → List ReqResult)
    (parse : String → Option String) (subject : String) (batch : List Chapter) :
    List DetailedChapter :=
  let rs := runBatch (batch.map (chapterPrompt subject))
  batch.map (fun ch =>
    match rs.find? (fun r => r.id == "chapter-" ++ ch.id) with
    | some r =>
      if r.error = none then
        match parse (cleanJsonResponse r.result) with
        | some content => ⟨ch, some content, none⟩
        | none => ⟨ch, none, none⟩
      else ⟨ch, none, none⟩
    | none => ⟨ch, none, none⟩)

/-- `GeminiService.generateDetailedCourse` (lines 376-514) restricted to its
chapter-content pipeline: chapters are processed in batches of
`Math.min(3, rateLimiter.getStatus().activeKeys)`; as in
`makeParallelRequests`, a zero batch size makes the chapter loop spin without
progress, encoded as `none`. -/
def generateDetailedCourse (runBatch : List Prompt → List ReqResult)
    (parse : String → Option String) (activeKeys : Nat) (subject : String)
    (chapters : List Chapter) : Option (List DetailedChapter) :=
  if chapters.isEmpty then some []
  else if min 3 activeKeys = 0 then none
  else some
    ((chunks (min 3 activeKeys) chapters).map
      (processChapterBatch runBatch parse subject)).flatten

theorem string_append_left_cancel {s a b : String} (h : s ++ a = s ++ b) : a = b := by
  have hd := congrArg String.data h
  rw [String.data_append, String.data_append] at hd
  exact String.ext (List.append_cancel_left hd)

theorem chunks_mem_sublist (b : Nat) (hb : b ≠ 0) :
    ∀ (l batch : List α), batch ∈ chunks b l → List.Sublist batch l := by
  have H : ∀ (n : Nat) (l batch : List α), l.length ≤ n → batch ∈ chunks b l →
      List.Sublist batch l := by
    intro n
    induction n with
    | zero =>
      intro l batch hl hm
      rw [List.length_eq_zero.mp (Nat.le_zero.mp hl)] at hm
      simp [chunks] at hm
    | succ n ih =>
      intro l batch hl hm
      cases l with
      | nil => simp [chunks] at hm
      | cons x xs =>
        rw [chunks, dif_neg hb] at hm
        rcases List.mem_cons.mp hm with hhead | htail
        · rw [hhead]
          exact List.take_sublist b (x :: xs)
        · have hdl : ((x :: xs).drop b).length ≤ n := by
            simp only [List.length_drop, List.length_cons]
            simp only [List.length_cons] at hl
            omega
          exact (ih ((x :: xs).drop b) batch hdl htail).trans (List.drop_sublist b (x :: xs))
  intro l batch hm
  exact H l.length l batch le_rfl hm

/-- Per-chapter result of the batched pipeline: what `generateDetailedCourse`
stores for a chapter whose dispatch outcome is `net` applied to its prompt. -/
def chapterResult (net : Prompt → ReqResult) (parse : String → Option String)
    (subject : String) (ch : Chapter) : DetailedChapter :=
  let r := net (chapterPrompt subject ch)
  if r.error = none then
    match parse (cleanJsonResponse r.result) with
    | some content => ⟨ch, some content, none⟩
    | none => ⟨ch, none, none⟩
  else ⟨ch, none, none⟩

theorem chapterResult_chapter (net : Prompt → ReqResult) (parse : String → Option String)
    (subject : String) (ch : Chapter) :
    (chapterResult net parse subject ch).chapter = ch := by
  rw [chapterResult]
  split
  · split <;> rfl
  · rfl

theorem chapterResult_failure (net : Prompt → ReqResult) (parse : String → Option String)
    (subject : String) (ch : Chapter)
    (h : (net (chapterPrompt subject ch)).error ≠ none ∨
      parse (cleanJsonResponse (net (chapterPrompt subject ch)).result) = none) :
    (chapterResult net parse subject ch).content = none := by
  rw [chapterResult]
  rcases h with herr | hparse
  · rw [if_neg herr]
  · split
    · rw [hparse]
    · rfl

theorem find?_chapter_batch (net : Prompt → ReqResult) (subject : String)
    (hid : ∀ p, (net p).id = p.id) :
    ∀ (batch : List Chapter) (ch : Chapter), ch ∈ batch →
      (batch.map Chapter.id).Nodup →
      ((batch.map (chapterPrompt subject)).map net).find?
        (fun r => r.id == "chapter-" ++ ch.id) = some (net (chapterPrompt subject ch)) := by
  intro batch
  induction batch with
  | nil => intro ch hch _; simp at hch
  | cons c rest ih =>
    intro ch hch hnodup
    rcases List.mem_cons.mp hch with hc | hmem
    · subst hc
      have hpred : ((net (chapterPrompt subject ch)).id == "chapter-" ++ ch.id) = true := by
        rw [hid]
        simp [chapterPrompt]
      simp only [List.map_cons]
      rw [List.find?_cons_of_pos (p := fun r : ReqResult => r.id == "chapter-" ++ ch.id) _ hpred]
    · have hne : c.id ≠ ch.id := by
        intro heq
        have hcnotin := (List.nodup_cons.mp hnodup).1
        apply hcnotin
        rw [heq]
        exact List.mem_map_of_mem Chapter.id hmem
      have hpred : ((net (chapterPrompt subject c)).id == "chapter-" ++ ch.id) = false := by
        rw [hid]
        simp only [chapterPrompt, beq_eq_false_iff_ne, ne_eq]
        intro heq
        exact hne (string_append_left_cancel heq)
      simp only [List.map_cons]
      rw [List.find?_cons_of_neg (p := fun r : ReqResult => r.id == "chapter-" ++ ch.id) _ (by simp [hpred])]
      exact ih ch hmem (List.nodup_cons.mp hnodup).2

theorem processChapterBatch_eq (net : Prompt → ReqResult) (parse : String → Option String)
    (subject : String) (batch : List Chapter)
    (hid : ∀ p, (net p).id = p.id)
    (hnodup : (batch.map Chapter.id).Nodup) :
    processChapterBatch (fun ps => ps.map net) parse subject batch =
      batch.map (chapterResult net parse subject) := by
  show batch.map (fun ch =>
      match ((batch.map (chapterPrompt subject)).map net).find?
          (fun r => r.id == "chapter-" ++ ch.id) with
      | some r =>
        if r.error = none then
          match parse (cleanJsonResponse r.result) with
          | some content => ⟨ch, some content, none⟩
          | none => ⟨ch, none, none⟩
        else ⟨ch, none, none⟩
      | none => ⟨ch, none, none⟩) = batch.map (chapterResult net parse subject)
  apply List.map_congr_left
  intro ch hch
  rw [find?_chapter_batch net subject hid batch ch hch hnodup]
  rfl

/-- Claim C7: for every roadmap whose chapters carry pairwise-distinct ids,
with at least one active credential, `generateDetailedCourse` produces a
detailed course with exactly one chapter entry per roadmap chapter, in order,
and a chapter whose generation request fails or whose response fails to parse
is kept with `null` content rather than aborting the remaining chapters or the
whole course. -/
theorem generateDetailedCourse_per_chapter (net : Prompt → ReqResult)
    (parse : String → Option String) (activeKeys : Nat) (subject : String)
    (chapters : List Chapter)
    (hk : 0 < activeKeys)
    (hid : ∀ p, (net p).id = p.id)
    (hnodup : (chapters.map Chapter.id).Nodup) :
    ∃ dcs, generateDetailedCourse (fun ps => ps.map net) parse activeKeys subject chapters =
        some dcs ∧
      dcs.map DetailedChapter.chapter = chapters ∧
      ∀ ch ∈ chapters, ∀ d ∈ dcs, d.chapter = ch →
        ((net (chapterPrompt subject ch)).error ≠ none ∨
          parse (cleanJsonResponse (net (chapterPrompt subject ch)).result) = none) →
        d.content = none := by
  have hbs0 : min 3 activeKeys ≠ 0 := by omega
  have hgen : generateDetailedCourse (fun ps => ps.map net) parse activeKeys subject chapters =
      some (chapters.map (chapterResult net parse subject)) := by
    by_cases hemp : chapters.isEmpty
    · rw [generateDetailedCourse, if_pos hemp, List.isEmpty_iff.mp hemp]
      rfl
    · rw [generateDetailedCourse, if_neg (by simpa using hemp), if_neg hbs0]
      congr 1
      have hbatches : ∀ batch ∈ chunks (min 3 activeKeys) chapters,
          processChapterBatch (fun ps => ps.map net) parse subject batch =
            batch.map (chapterResult net parse subject) := by
        intro batch hb
        apply processChapterBatch_eq net parse subject batch hid
        have hsub : List.Sublist batch chapters := chunks_mem_sublist _ hbs0 chapters batch hb
        exact hnodup.sublist (hsub.map Chapter.id)
      rw [List.map_congr_left hbatches, ← List.map_flatten, chunks_join _ hbs0]
  refine ⟨chapters.map (chapterResult net parse subject), hgen, ?_, ?_⟩
  · rw [List.map_map]
    have hcomp : DetailedChapter.chapter ∘ chapterResult net parse subject = id := by
      funext c
      exact chapterResult_chapter net parse subject c
    rw [hcomp, List.map_id]
  · intro ch hch d hd hdch hfail
    rcases List.mem_map.mp hd with ⟨c2, hc2, hdef⟩
    have hc2ch : c2 = ch := by rw [← hdch, ← hdef, chapterResult_chapter]
    rw [← hdef, hc2ch]
    exact chapterResult_failure net parse subject ch hfail

/-- Concrete one-chapter roadmap for instantiating the pipeline theorem. -/
def demoChapters : List Chapter := [⟨"c1", "T", "D", "2h"⟩]

/-- Concrete outcome: every chapter dispatch fails with an error result. -/
def demoChapterNet : Prompt → ReqResult := fun p => ⟨p.id, "", some "boom"⟩

theorem generateDetailedCourse_per_chapter_witness :
    ∃ dcs, generateDetailedCourse (fun ps => ps.map demoChapterNet) (fun _ => none) 1 "Math"
        demoChapters = some dcs ∧
      dcs.map DetailedChapter.chapter = demoChapters ∧
      ∀ ch ∈ demoChapters, ∀ d ∈ dcs, d.chapter = ch →
        ((demoChapterNet (chapterPrompt "Math" ch)).error ≠ none ∨
          (fun _ : String => (none : Option String))
            (cleanJsonResponse (demoChapterNet (chapterPrompt "Math" ch)).result) = none) →
        d.content = none :=
  generateDetailedCourse_per_chapter demoChapterNet (fun _ => none) 1 "Math" demoChapters
    (by decide) (fun p => rfl) (by decide)

/-- Profile record of `UserProfile` as built by the local fallbacks of
`userService.ts` (string timestamps; `uid` embeds the `_id` field). -/
structure UserProfile where
  uid : String
  clerkId : String
  email : String
  firstName : String
  lastName : String
  imageUrl : String
  createdAt : String
  updatedAt : String
  deriving Repr, DecidableEq

/-- Per-chapter progress entry of a learning-history row. -/
structure ChapterProgress where
  chapterId : String
  completed : Bool
  completedAt : Option String
  deriving Repr, DecidableEq

/-- One learning-history row. -/
structure LearningHistory where
  hid : String
  userId : String
  subject : String
  difficulty : String
  roadmapId : String
  chapterProgress : List ChapterProgress
  startedAt : String
  lastAccessedAt : String
  deriving Repr, DecidableEq

/-- The roadmap payload persisted by `saveRoadmap` (`RoadmapData` of
userService.ts lines 4-14; chapters kept as opaque entries). -/
structure RoadmapData where
  roadmapId : String
  subject : String
  difficulty : String
  description : String
  totalDuration : String
  estimatedHours : String
  prerequisites : List String
  learningOutcomes : List String
  chapters : List String
  deriving Repr, DecidableEq

/-- The detailed-course payload of `saveDetailedCourse`. -/
structure CourseData where
  roadmapId : String
  title : String
  description : String
  chapters : List String
  deriving Repr, DecidableEq

/-- Typed view of `localStorage` for one entity family: string keys to
values (the JSON round trip through `JSON.stringify`/`JSON.parse` is assumed
faithful). -/
def Store (α : Type) : Type := List (String × α)

/-- `localStorage.setItem`: overwrite the binding of `k`. -/
def setItem {α : Type} (s : Store α) (k : String) (v : α) : Store α :=
  (k, v) :: List.filter (fun p => !(p.1 == k)) s

/-- `localStorage.getItem` (with the parse of the stored JSON). -/
def getItem {α : Type} (s : Store α) (k : String) : Option α :=
  (List.find? (fun p => p.1 == k) s).map (fun p => p.2)

/-- `UserService.getOrCreateUser` (userService.ts lines 17-43): on a backend
failure, build a fallback profile from the input data, store it under
`user_` plus the clerk id, and return it without raising. -/
def getOrCreateUser (backend : Except String UserProfile) (store : Store UserProfile)
    (clerkId email firstName lastName imageUrl now : String) :
    Except String UserProfile × Store UserProfile :=
  match backend with
  | .ok u => (.ok u, store)
  | .error _ =>
    let fallback : UserProfile := ⟨clerkId, clerkId, email, firstName, lastName, imageUrl, now, now⟩
    (.ok fallback, setItem store ("user_" ++ clerkId) fallback)

/-- `UserService.updateUser` (lines 45-60): on a backend failure, merge the
partial update into the locally stored profile when one exists (the spread
`{...user, ...data, updatedAt: ...}` embedded as the update function `f`
followed by setting `updatedAt`); when no local profile exists the original
error is rethrown. -/
def updateUser (backend : Except String UserProfile) (store : Store UserProfile)
    (userId : String) (f : UserProfile → UserProfile) (now : String) :
    Except String UserProfile × Store UserProfile :=
  match backend with
  | .ok u => (.ok u, store)
  | .error e =>
    match getItem store ("user_" ++ userId) with
    | some user =>
      let updated := { f user with updatedAt := now }
      (.ok updated, setItem store ("user_" ++ userId) updated)
    | none => (.error e, store)

/-- `UserService.getUserHistory` (lines 62-71): on a backend failure, return
the locally stored history, or the empty list when none is stored. -/
def getUserHistory (backend : Except String (List LearningHistory))
    (store : Store (List LearningHistory)) (userId : String) :
    Except String (List LearningHistory) :=
  match backend with
  | .ok h => .ok h
  | .error _ =>
    match getItem store ("history_" ++ userId) with
    | some h => .ok h
    | none => .ok []

/-- `UserService.addToHistory` (lines 73-108): on a backend failure, build the
new history row (id `history_` plus the current epoch milliseconds), append it
to the locally stored list and return it without raising. -/
def addToHistory (backend : Except String LearningHistory)
    (store : Store (List LearningHistory)) (userId : String)
    (subject difficulty roadmapId : String) (progress : List ChapterProgress)
    (nowMs : Nat) (nowIso : String) :
    Except String LearningHistory × Store (List LearningHistory) :=
  match backend with
  | .ok h => (.ok h, store)
  | .error _ =>
    let newHistory : LearningHistory :=
      ⟨"history_" ++ toString nowMs, userId, subject, difficulty, roadmapId,
        progress, nowIso, nowIso⟩
    let existing := match getItem store ("history_" ++ userId) with
      | some h => h
      | none => []
    (.ok newHistory, setItem store ("history_" ++ userId) (existing ++ [newHistory]))

/-- `UserService.saveRoadmap` (lines 141-149): on a backend failure, store the
roadmap under `roadmap_` plus the roadmap id and return without raising. -/
def saveRoadmap (backend : Except String Unit) (store : Store RoadmapData)
    (userId : String) (roadmapData : RoadmapData) :
    Except String Unit × Store RoadmapData :=
  match backend with
  | .ok _ => (.ok (), store)
  | .error _ => (.ok (), setItem store ("roadmap_" ++ roadmapData.roadmapId) roadmapData)

/-- `UserService.getRoadmap` (lines 151-160): on a backend failure, return the
locally stored roadmap, or `null` when none is stored, without raising. -/
def getRoadmap (backend : Except String (Option RoadmapData)) (store : Store RoadmapData)
    (userId roadmapId : String) : Except String (Option RoadmapData) :=
  match backend with
  | .ok v => .ok v
  | .error _ => .ok (getItem store ("roadmap_" ++ roadmapId))

/-- `UserService.saveDetailedCourse` (lines 184-197): on a backend failure,
store the course under `detailed_course_` plus the roadmap id and return
without raising. -/
def saveDetailedCourse (backend : Except String Unit) (store : Store CourseData)
    (userId : String) (courseData : CourseData) :
    Except String Unit × Store CourseData :=
  match backend with
  | .ok _ => (.ok (), store)
  | .error _ =>
    (.ok (), setItem store ("detailed_course_" ++ courseData.roadmapId) courseData)

/-- `UserService.getDetailedCourse` (lines 199-210): on a backend failure,
return the locally stored course, or `null` when none is stored, without
raising. -/
def getDetailedCourse (backend : Except String (Option CourseData)) (store : Store CourseData)
    (userId roadmapId : String) : Except String (Option CourseData) :=
  match backend with
  | .ok v => .ok v
  | .error _ => .ok (getItem store ("detailed_course_" ++ roadmapId))

/-- Claim C8 (counterexample): the claim states that every persistence
operation of the user service falls back to local storage without propagating
an error; `updateUser` with a failing backend and no locally stored user
rethrows the backend error to the caller. -/
theorem updateUser_propagates_counterexample :
    updateUser (.error "db down") ([] : Store UserProfile) "u1" id "2025-01-01" =
      (.error "db down", []) := rfl

/-- Claim C8 (amended): for every persistence operation of the user service
(user create, history read/write, roadmap save/get, detailed-course save/get),
a backend failure falls back to local storage and returns a result without
propagating an error; `updateUser` is the exception: it falls back only when a
locally stored profile exists and otherwise rethrows the backend error. -/
theorem userService_fallback_spec (e now : String) (ustore : Store UserProfile)
    (hstore : Store (List LearningHistory)) (rstore : Store RoadmapData)
    (cstore : Store CourseData)
    (clerkId email firstName lastName imageUrl userId subject difficulty roadmapId : String)
    (progress : List ChapterProgress) (nowMs : Nat)
    (f : UserProfile → UserProfile) (rd : RoadmapData) (cd : CourseData) :
    (∃ u, (getOrCreateUser (.error e) ustore clerkId email firstName lastName
        imageUrl now).1 = .ok u) ∧
    (∃ h, getUserHistory (.error e) hstore userId = .ok h) ∧
    (∃ h, (addToHistory (.error e) hstore userId subject difficulty roadmapId
        progress nowMs now).1 = .ok h) ∧
    ((saveRoadmap (.error e) rstore userId rd).1 = .ok ()) ∧
    (∃ v, getRoadmap (.error e) rstore userId roadmapId = .ok v) ∧
    ((saveDetailedCourse (.error e) cstore userId cd).1 = .ok ()) ∧
    (∃ v, getDetailedCourse (.error e) cstore userId roadmapId = .ok v) ∧
    (∀ u, getItem ustore ("user_" ++ userId) = some u →
      (updateUser (.error e) ustore userId f now).1 = .ok { f u with updatedAt := now }) ∧
    (getItem ustore ("user_" ++ userId) = none →
      (updateUser (.error e) ustore userId f now).1 = .error e) := by
  refine ⟨⟨_, rfl⟩, ?_, ⟨_, rfl⟩, rfl, ⟨_, rfl⟩, rfl, ⟨_, rfl⟩, ?_, ?_⟩
  · rw [getUserHistory]
    cases getItem hstore ("history_" ++ userId) <;> exact ⟨_, rfl⟩
  · intro u hu
    rw [updateUser, hu]
  · intro hu
    rw [updateUser, hu]

theorem userService_fallback_spec_witness :
    (∃ u, (getOrCreateUser (.error "db down") [] "u1" "a@b.c" "Ada" "L" "img" "t0").1 =
      .ok u) ∧
    (∃ h, getUserHistory (.error "db down") [] "u1" = .ok h) ∧
    (∃ h, (addToHistory (.error "db down") [] "u1" "Math" "easy" "r1" [] 5 "t0").1 = .ok h) ∧
    ((saveRoadmap (.error "db down") [] "u1"
        ⟨"r1", "Math", "easy", "d", "1w", "2h", [], [], []⟩).1 = .ok ()) ∧
    (∃ v, getRoadmap (.error "db down") [] "u1" "r1" = .ok v) ∧
    ((saveDetailedCourse (.error "db down") [] "u1" ⟨"r1", "t", "d", []⟩).1 = .ok ()) ∧
    (∃ v, getDetailedCourse (.error "db down") [] "u1" "r1" = .ok v) ∧
    ((updateUser (.error "db down") [] "u1" id "t0").1 = .error "db down") :=
  have h := userService_fallback_spec "db down" "t0" [] [] [] []
    "u1" "a@b.c" "Ada" "L" "img" "u1" "Math" "easy" "r1" [] 5 id
    ⟨"r1", "Math", "easy", "d", "1w", "2h", [], [], []⟩ ⟨"r1", "t", "d", []⟩
  ⟨h.1, h.2.1, h.2.2.1, h.2.2.2.1, h.2.2.2.2.1, h.2.2.2.2.2.1, h.2.2.2.2.2.2.1,
   h.2.2.2.2.2.2.2.2 rfl⟩

/-- One row of the `roadmaps` table of the migration
`20250711181457_silver_plain.sql` (the columns beyond the indexed pair are
collapsed into an opaque payload; they do not participate in the constraint). -/
structure RoadmapRow where
  user_id : String
  roadmap_id : String
  payload : String
  deriving Repr, DecidableEq

/-- Insert into `roadmaps` under the declared
`CREATE UNIQUE INDEX idx_roadmaps_user_roadmap ON roadmaps(user_id,
roadmap_id)`: the store itself rejects a row whose `(user_id, roadmap_id)`
pair is already present, with no application-side check involved. -/
def insertRoadmapRow (tbl : List RoadmapRow) (r : RoadmapRow) :
    Except String (List RoadmapRow) :=
  if tbl.any (fun x => x.user_id == r.user_id && x.roadmap_id == r.roadmap_id) then
    .error "duplicate key value violates unique constraint \"idx_roadmaps_user_roadmap\""
  else .ok (tbl ++ [r])

/-- The invariant guaranteed by the unique index: no two rows share the
`(user_id, roadmap_id)` pair. -/
def UniquePairs (tbl : List RoadmapRow) : Prop :=
  tbl.Pairwise (fun a b => ¬(a.user_id = b.user_id ∧ a.roadmap_id = b.roadmap_id))

/-- Claim C10: at most one roadmap row per `(user_id, roadmap_id)` pair can
exist in storage: an insert whose pair is already present is rejected by the
store's uniqueness constraint (in particular a second insert of a freshly
inserted row fails), and a successful insert preserves the pairwise
uniqueness of the table. -/
theorem roadmaps_unique_pair (tbl : List RoadmapRow) (r : RoadmapRow) :
    ((∃ x ∈ tbl, x.user_id = r.user_id ∧ x.roadmap_id = r.roadmap_id) →
      insertRoadmapRow tbl r =
        .error "duplicate key value violates unique constraint \"idx_roadmaps_user_roadmap\"") ∧
    (∀ tbl2, insertRoadmapRow tbl r = .ok tbl2 →
      insertRoadmapRow tbl2 r =
        .error "duplicate key value violates unique constraint \"idx_roadmaps_user_roadmap\"") ∧
    (∀ tbl2, UniquePairs tbl → insertRoadmapRow tbl r = .ok tbl2 → UniquePairs tbl2) := by
  refine ⟨?_, ?_, ?_⟩
  · intro ⟨x, hx, h1, h2⟩
    rw [insertRoadmapRow, if_pos]
    refine List.any_eq_true.mpr ⟨x, hx, ?_⟩
    simp [h1, h2]
  · intro tbl2 hok
    rw [insertRoadmapRow] at hok
    by_cases hdup : tbl.any (fun x => x.user_id == r.user_id && x.roadmap_id == r.roadmap_id)
    · rw [if_pos hdup] at hok
      exact absurd hok (by simp)
    · rw [if_neg hdup] at hok
      have htbl2 : tbl2 = tbl ++ [r] := by
        have := hok
        simp only [Except.ok.injEq] at this
        exact this.symm
      rw [htbl2, insertRoadmapRow, if_pos]
      refine List.any_eq_true.mpr ⟨r, by simp, by simp⟩
  · intro tbl2 huniq hok
    rw [insertRoadmapRow] at hok
    by_cases hdup : tbl.any (fun x => x.user_id == r.user_id && x.roadmap_id == r.roadmap_id)
    · rw [if_pos hdup] at hok
      exact absurd hok (by simp)
    · rw [if_neg hdup] at hok
      have htbl2 : tbl2 = tbl ++ [r] := by
        simp only [Except.ok.injEq] at hok
        exact hok.symm
      rw [htbl2]
      rw [UniquePairs, List.pairwise_append]
      refine ⟨huniq, List.pairwise_singleton _ _, ?_⟩
      intro x hx y hy
      have hy1 : y = r := List.mem_singleton.mp hy
      rw [hy1]
      intro ⟨h1, h2⟩
      have : tbl.any (fun x => x.user_id == r.user_id && x.roadmap_id == r.roadmap_id) = true :=
        List.any_eq_true.mpr ⟨x, hx, by simp [h1, h2]⟩
      rw [this] at hdup
      exact hdup rfl

theorem roadmaps_unique_pair_witness :
    insertRoadmapRow [⟨"u1", "r1", "p"⟩] ⟨"u1", "r1", "q"⟩ =
      .error "duplicate key value violates unique constraint \"idx_roadmaps_user_roadmap\"" ∧
    (∀ tbl2, insertRoadmapRow [] (⟨"u1", "r1", "p"⟩ : RoadmapRow) = .ok tbl2 →
      insertRoadmapRow tbl2 ⟨"u1", "r1", "p"⟩ =
        .error "duplicate key value violates unique constraint \"idx_roadmaps_user_roadmap\"") :=
  ⟨(roadmaps_unique_pair [⟨"u1", "r1", "p"⟩] ⟨"u1", "r1", "q"⟩).1
      ⟨⟨"u1", "r1", "p"⟩, by decide, rfl, rfl⟩,
   (roadmaps_unique_pair [] ⟨"u1", "r1", "p"⟩).2.1⟩
